import Mathlib

/-!
Shallow embedding of the valuation pipeline of the financial portfolio
manager (backend in `src/backend`), at the granularity the verified claims
need:

* a calendar model mirroring Python `datetime` at second precision
  (`DT`), with `dateutil.relativedelta(months = n)` month stepping and
  `timedelta.days` flooring;
* the bond accrual engine `calculate_bond_value`
  (`assets/bonds/update_bonds_prices.py`), with the simulation loop made
  fuel-indexed so that non-termination is observable as `outOfFuel`;
* the FX lookup `translate_currency` (`currency/translate_currency.py`);
* the point-in-time price resolver `get_asset_price_at_datetime`
  (`assets/asset_price_historian.py`);
* the statistic builder `update_user_portfolio_value`
  (`statistics/portfolio_value_updater.py`) over an explicit database
  state, with each phase committing separately as the source does;
* the retention job `cleanup_old_price_data`
  (`assets/asset_price_historian.py`) against the schema of
  `database/models.py`.

Money amounts are embedded as `ℚ` (the source uses Python floats; every
claim checked here is either exact arithmetic or a tolerance that exact
rational arithmetic satisfies trivially).
-/

namespace Pvu

/-- Decidable equality on `Except`, for evaluating concrete runs. -/
instance instDecEqExcept {ε α : Type} [DecidableEq ε] [DecidableEq α] :
    DecidableEq (Except ε α) := fun a b =>
  match a, b with
  | .error x, .error y =>
    if h : x = y then .isTrue (congrArg Except.error h)
    else .isFalse (fun hh => h (Except.error.inj hh))
  | .ok x, .ok y =>
    if h : x = y then .isTrue (congrArg Except.ok h)
    else .isFalse (fun hh => h (Except.ok.inj hh))
  | .error _, .ok _ => .isFalse (fun hh => Except.noConfusion hh)
  | .ok _, .error _ => .isFalse (fun hh => Except.noConfusion hh)

/-! ## Calendar model

`DT` is a civil datetime: year/month/day plus seconds within the day.
All datetimes occurring in runs are canonical (month in 1..12, day valid
for the month), so structural equality coincides with instant equality,
matching Python's value equality on `datetime`. -/

structure DT where
  year : Int
  month : Int
  day : Int
  sec : Int
deriving DecidableEq, Repr

def isLeap (y : Int) : Bool :=
  y % 4 == 0 && (y % 100 != 0 || y % 400 == 0)

def daysInMonth (y m : Int) : Int :=
  if m = 2 then (if isLeap y then 29 else 28)
  else if m = 4 ∨ m = 6 ∨ m = 9 ∨ m = 11 then 30
  else 31

/-- Days since 1970-01-01 (proleptic Gregorian, the civil-days algorithm). -/
def DT.toDays (t : DT) : Int :=
  let y := if t.month ≤ 2 then t.year - 1 else t.year
  let era := Int.fdiv y 400
  let yoe := y - era * 400
  let mp := Int.emod (t.month + 9) 12
  let doy := Int.fdiv (153 * mp + 2) 5 + t.day - 1
  let doe := yoe * 365 + Int.fdiv yoe 4 - Int.fdiv yoe 100 + doy
  era * 146097 + doe - 719468

/-- Seconds since the epoch; the chronological order on `DT`. -/
def DT.toSec (t : DT) : Int :=
  t.toDays * 86400 + t.sec

/-- `dateutil.relativedelta(months = n)`: add `n` months, clamping the
day-of-month to the target month's length, keeping the time of day. -/
def DT.addMonths (t : DT) (n : Int) : DT :=
  let total := t.year * 12 + (t.month - 1) + n
  let y := Int.fdiv total 12
  let m := Int.emod total 12 + 1
  { year := y, month := m, day := min t.day (daysInMonth y m), sec := t.sec }

/-- Python `(b - a).days`: the floor of the difference in days. -/
def daysBetween (a b : DT) : Int :=
  Int.fdiv (b.toSec - a.toSec) 86400

/-- Python `min` on two datetimes (keeps the first argument on ties). -/
def minDT (a b : DT) : DT :=
  if b.toSec < a.toSec then b else a

/-- `(b.year - a.year) * 12 + (b.month - a.month)`, day ignored. -/
def fullMonths (a b : DT) : Int :=
  (b.year - a.year) * 12 + (b.month - a.month)

/-! ## Bond accrual engine (`calculate_bond_value`)

The source simulates from `purchase_date` with events at rate resets,
capitalizations, the end date and the maturity date.  The `while` loop is
embedded with explicit fuel: `outOfFuel` marks a run that did not reach
the loop exit within the given number of iterations (the source would
still be looping). -/

inductive BondResult
  | ok (v : ℚ)
  | badRange
  | missingData
  | outOfFuel
deriving DecidableEq, Repr

structure BondCfg where
  purchase_price : ℚ
  capitalization_of_interest : Bool
  capitalization_frequency : Option Int
  interestRateResetsFrequency : Int
  purchase_date : DT
  maturity_date : DT
  interest_rates : List (Int × ℚ)
deriving DecidableEq, Repr

/-- `max(map(int, interest_rates.keys()))`; only evaluated on non-empty
schedules (the source checks `not interest_rates` first). -/
def maxRateKey (rates : List (Int × ℚ)) : Int :=
  match rates with
  | [] => 0
  | h :: t => t.foldl (fun acc p => max acc p.1) h.1

/-- `interest_rates.get(str(k), interest_rates.get(str(max_key)))["rate"]`:
exact key lookup with fall-back to the rate at the maximal key. -/
def rateFor (rates : List (Int × ℚ)) (k : Int) : ℚ :=
  match rates.find? (fun p => p.1 == k) with
  | some p => p.2
  | none =>
    match rates.find? (fun p => p.1 == maxRateKey rates) with
    | some p => p.2
    | none => 0

structure BondState where
  principal : ℚ
  accrued_interest : ℚ
  current_dt : DT
deriving DecidableEq, Repr

/-- One iteration of the source's `while current_dt < end_dt` body. -/
def bondStep (cfg : BondCfg) (end_dt : DT) (s : BondState) : BondState :=
  let months_passed :=
    Int.fdiv (fullMonths cfg.purchase_date s.current_dt)
      cfg.interestRateResetsFrequency + 1
  let annual_rate := rateFor cfg.interest_rates months_passed / 100
  let next_reset_dt := s.current_dt.addMonths cfg.interestRateResetsFrequency
  let next_capitalization_dt :=
    match cfg.capitalization_frequency with
    | some f =>
      if cfg.capitalization_of_interest then s.current_dt.addMonths f
      else cfg.maturity_date
    | none => cfg.maturity_date
  let next_dt :=
    minDT (minDT (minDT next_reset_dt next_capitalization_dt) end_dt)
      cfg.maturity_date
  let days := daysBetween s.current_dt next_dt
  let accrued :=
    s.accrued_interest + s.principal * (annual_rate / 365) * (days : ℚ)
  if cfg.capitalization_of_interest ∧ cfg.capitalization_frequency ≠ none ∧
      next_dt = next_capitalization_dt then
    { principal := s.principal + accrued, accrued_interest := 0,
      current_dt := next_dt }
  else
    { principal := s.principal, accrued_interest := accrued,
      current_dt := next_dt }

def bondLoop (cfg : BondCfg) (end_dt : DT) : Nat → BondState → BondResult
  | 0, s =>
    if s.current_dt.toSec < end_dt.toSec then .outOfFuel
    else .ok (s.principal + s.accrued_interest)
  | n + 1, s =>
    if s.current_dt.toSec < end_dt.toSec then
      bondLoop cfg end_dt n (bondStep cfg end_dt s)
    else .ok (s.principal + s.accrued_interest)

/-- `calculate_bond_value`: the missing-data guard, the end-date choice
(`maturity_date` when `calculate_maturity_value` else `utcnow()`, passed
here as `now`), the bad-range guard, then the event walk. -/
def calculate_bond_value (fuel : Nat) (cfg : BondCfg)
    (calculate_maturity_value : Bool) (now : DT) : BondResult :=
  if cfg.interest_rates = [] then .missingData
  else
    let end_dt := if calculate_maturity_value then cfg.maturity_date else now
    if end_dt.toSec < cfg.purchase_date.toSec then .badRange
    else
      bondLoop cfg end_dt fuel
        { principal := cfg.purchase_price, accrued_interest := 0,
          current_dt := cfg.purchase_date }

/-! ## Domain model (`database/models.py`)

Fields that no verified claim touches (names, volume, open/high/low,
created_at, auto_update) are omitted.  `purchase_date` and `quantity` are
nullable columns in the source; the embedding covers the rows where they
are set, which every code path under scrutiny presupposes. -/

inductive AssetType
  | stocks | bonds | crypto | real_estate | savings | other
deriving DecidableEq, Repr

inductive AssetStatus
  | active | closed
deriving DecidableEq, Repr

/-- The `bond_settings` JSON map; absent keys are `none`, matching the
source's `dict.get` defaults. -/
structure BondSettingsJson where
  capitalizationOfInterest : Option Bool
  capitalizationFrequency : Option Int
  interestRateResetsFrequency : Option Int
  maturityDate : Option DT
  interestRates : Option (List (Int × ℚ))
deriving DecidableEq, Repr

structure Asset where
  id : Int
  user_id : Int
  type : AssetType
  status : AssetStatus
  symbol : Option String
  mic_code : Option String
  exchange : Option String
  currency : Option String
  purchase_price : ℚ
  current_price : Option ℚ
  purchase_date : DT
  quantity : ℚ
  bond_settings : Option BondSettingsJson
  updated_at : Int
deriving DecidableEq, Repr

structure AssetPrice where
  symbol : String
  mic_code : String
  exchange : String
  datetime : DT
  interval : String
  close : ℚ
deriving DecidableEq, Repr

structure CurrencyExchangeRate where
  source_currency : String
  target_currency : String
  rate : ℚ
deriving DecidableEq, Repr

structure Statistic where
  user_id : Int
  date : DT
  total_portfolio_value : ℚ
  portfolio_distribution : List (AssetType × ℚ)
deriving DecidableEq, Repr

structure DBState where
  assets : List Asset
  statistics : List Statistic
  currency_rates : List CurrencyExchangeRate
  asset_prices : List AssetPrice
deriving DecidableEq, Repr

inductive Err
  | unknownRate (src tgt : String)
  | noPrice (symbol : String)
  | assetNotFound (id : Int)
  | bondMissingData
  | bondBadRange
  | bondOutOfFuel
  | uniqueViolation
deriving DecidableEq, Repr

/-! ## FX lookup (`currency/translate_currency.py`) -/

/-- `translate_currency`: read the first `(source, target)` row; raise
`ValueError` (here `Err.unknownRate`) if absent, else `rate * amount`.
There is no same-currency special case in the source. -/
def translate_currency (rates : List CurrencyExchangeRate)
    (source_currency_code target_currency_code : String) (amount : ℚ) :
    Except Err ℚ :=
  match rates.find? (fun r =>
      r.source_currency == source_currency_code &&
      r.target_currency == target_currency_code) with
  | none => .error (.unknownRate source_currency_code target_currency_code)
  | some r => .ok (r.rate * amount)

/-! ## Point-in-time price resolver (`get_asset_price_at_datetime`) -/

def findAsset (db : DBState) (asset_id : Int) : Option Asset :=
  db.assets.find? (fun a => a.id == asset_id)

/-- The market query: bars matching the asset's `(symbol, mic_code,
exchange)` with `datetime <= t`, `order_by(datetime desc).limit(1)`.
A `NULL` asset column matches no bar (SQL `=` semantics). -/
def latestBarAtOrBefore (db : DBState) (asset : Asset) (t : DT) :
    Option AssetPrice :=
  let rows := db.asset_prices.filter (fun p =>
    (match asset.symbol with | some s => p.symbol == s | none => false) &&
    (match asset.mic_code with | some s => p.mic_code == s | none => false) &&
    (match asset.exchange with | some s => p.exchange == s | none => false) &&
    decide (p.datetime.toSec ≤ t.toSec))
  rows.foldl (fun acc p =>
    match acc with
    | none => some p
    | some q => if q.datetime.toSec < p.datetime.toSec then some p else some q)
    none

/-- The `bond_settings` dict passed to `calculate_bond_value` by the
resolver: note the source hands `target_datetime` over as the
`maturity_date` argument and sets `calculate_maturity_value=True`. -/
def bondCfgOfAsset (asset : Asset) (maturity : DT) : BondCfg :=
  let s := asset.bond_settings.getD
    { capitalizationOfInterest := none, capitalizationFrequency := none,
      interestRateResetsFrequency := none, maturityDate := none,
      interestRates := none }
  { purchase_price := asset.purchase_price
    capitalization_of_interest := s.capitalizationOfInterest.getD false
    capitalization_frequency := s.capitalizationFrequency
    interestRateResetsFrequency := s.interestRateResetsFrequency.getD 12
    purchase_date := asset.purchase_date
    maturity_date := maturity
    interest_rates := s.interestRates.getD [] }

def get_asset_price_at_datetime (fuel : Nat) (db : DBState) (asset_id : Int)
    (target_datetime : DT) : Except Err ℚ :=
  match findAsset db asset_id with
  | none => .error (.assetNotFound asset_id)
  | some asset =>
    match asset.type with
    | .stocks | .crypto =>
      match latestBarAtOrBefore db asset target_datetime with
      | none => .error (.noPrice (asset.symbol.getD ""))
      | some price_record => .ok price_record.close
    | .bonds =>
      match calculate_bond_value fuel (bondCfgOfAsset asset target_datetime)
          true target_datetime with
      | .ok v => .ok v
      | .badRange => .error .bondBadRange
      | .missingData => .error .bondMissingData
      | .outOfFuel => .error .bondOutOfFuel
    | _ => .ok asset.purchase_price

/-! ## Portfolio statistic builder (`update_user_portfolio_value`)

The `portfolio_distribution` dict is an association list with the dict's
update semantics (replace in place if the key is present, else append). -/

def distGet (d : List (AssetType × ℚ)) (ty : AssetType) : ℚ :=
  match d.find? (fun p => p.1 == ty) with
  | some p => p.2
  | none => 0

def distSet (d : List (AssetType × ℚ)) (ty : AssetType) (v : ℚ) :
    List (AssetType × ℚ) :=
  match d with
  | [] => [(ty, v)]
  | p :: rest => if p.1 == ty then (ty, v) :: rest else p :: distSet rest ty v

def sumValues (d : List (AssetType × ℚ)) : ℚ :=
  d.foldl (fun acc p => acc + p.2) 0

/-- The per-asset accumulation shared verbatim by the three phase loops of
`update_user_portfolio_value`; the loops differ only in how `asset_price`
is chosen (`pricer`).  Where the source calls `translate_currency` twice on
identical arguments (once into the total, once into the distribution), the
deterministic value is bound once.  The currency guard mirrors
`if asset.currency and asset.currency != "USD"` (falsy empty string
included). -/
def addAsset (rates : List CurrencyExchangeRate)
    (pricer : Asset → Except Err ℚ) (acc : ℚ × List (AssetType × ℚ))
    (asset : Asset) : Except Err (ℚ × List (AssetType × ℚ)) := do
  let asset_price ← pricer asset
  let contribution ←
    match asset.currency with
    | some c =>
      if c ≠ "" ∧ c ≠ "USD" then
        translate_currency rates c "USD" (asset_price * asset.quantity)
      else pure (asset_price * asset.quantity)
    | none => pure (asset_price * asset.quantity)
  pure (acc.1 + contribution,
    distSet acc.2 asset.type (distGet acc.2 asset.type + contribution))

def valueAssets (rates : List CurrencyExchangeRate)
    (pricer : Asset → Except Err ℚ) :
    List Asset → ℚ × List (AssetType × ℚ) →
    Except Err (ℚ × List (AssetType × ℚ))
  | [], acc => .ok acc
  | a :: rest, acc =>
    match addAsset rates pricer acc a with
    | .error e => .error e
    | .ok acc2 => valueAssets rates pricer rest acc2

def activeAssetsOf (db : DBState) (user_id : Int) : List Asset :=
  db.assets.filter (fun a => a.user_id == user_id && a.status == .active)

/-- Fold step keeping the more recently updated asset (first one on
ties). -/
def pickNewer (acc : Option Asset) (a : Asset) : Option Asset :=
  match acc with
  | none => some a
  | some b => if b.updated_at < a.updated_at then some a else some b

/-- The triggering asset: `order_by(updated_at desc).limit(1)` over the
user's active assets (first row with maximal `updated_at`). -/
def latestActiveAsset (db : DBState) (user_id : Int) : Option Asset :=
  (activeAssetsOf db user_id).foldl pickNewer none

def statsOf (db : DBState) (user_id : Int) : List Statistic :=
  db.statistics.filter (fun s => s.user_id == user_id)

/-- `cast(Statistic.date, Date) >= cast(purchase_date, Date)`: day
granularity. -/
def relevantStatistics (db : DBState) (user_id : Int) (purchase_date : DT) :
    List Statistic :=
  (statsOf db user_id).filter (fun s =>
    decide (purchase_date.toDays ≤ s.date.toDays))

/-- `relevant_statistics[0]` of the ascending-by-date ordering: the row
with minimal date. -/
def firstRelevant (l : List Statistic) : Option Statistic :=
  l.foldl (fun acc s =>
    match acc with
    | none => some s
    | some b => if s.date.toSec < b.date.toSec then some s else some b) none

/-- Fold step keeping the chronologically later statistic (first one on
ties, matching `order_by desc limit 1`). -/
def pickLater (acc : Option Statistic) (s : Statistic) : Option Statistic :=
  match acc with
  | none => some s
  | some b => if b.date.toSec < s.date.toSec then some s else some b

/-- `order_by(Statistic.date.desc()).limit(1)` over the user's rows. -/
def lastStatisticOf (db : DBState) (user_id : Int) : Option Statistic :=
  (statsOf db user_id).foldl pickLater none

/-- `session.add` + `commit` against the unique index
`idx_user_date (user_id, date)` of `statistics` — the raw datetime, not
the calendar day.  A key collision raises (IntegrityError) and the
transaction is rolled back. -/
def insertStatistic (db : DBState) (s : Statistic) : Except Err DBState :=
  if db.statistics.any (fun t => t.user_id == s.user_id && t.date == s.date)
  then .error .uniqueViolation
  else .ok { db with statistics := db.statistics ++ [s] }

/-- Phase 1 of `update_user_portfolio_value` (lines 76-120): build a
statistic at the triggering asset's `purchase_date` from the active assets
whose purchase day is at or before it; the triggering asset itself is
priced at its recorded `purchase_price`, the others through the resolver
with the `or purchase_price` falsy fallback. -/
def phaseA (fuel : Nat) (db : DBState) (user_id : Int) (latest_asset : Asset)
    (purchase_date : DT) : Except Err DBState :=
  let assets := db.assets.filter (fun a =>
    a.user_id == user_id && a.status == .active &&
    decide (a.purchase_date.toDays ≤ purchase_date.toDays))
  let pricer := fun (a : Asset) =>
    if a.id == latest_asset.id then pure latest_asset.purchase_price
    else do
      let p ← get_asset_price_at_datetime fuel db a.id purchase_date
      pure (if p = 0 then a.purchase_price else p)
  match valueAssets db.currency_rates pricer assets (0, []) with
  | .error e => .error e
  | .ok (total_value, portfolio_distribution) =>
    insertStatistic db
      { user_id := user_id, date := purchase_date,
        total_portfolio_value := total_value,
        portfolio_distribution := portfolio_distribution }

/-- The body of Phase 2's loop (lines 126-158): recompute one loaded
statistic from the active assets with `purchase_date <= statistic.date`
(full datetime comparison in the source, unlike Phase 1's day cast). -/
def recomputeStat (fuel : Nat) (db : DBState) (user_id : Int)
    (statistic : Statistic) : Except Err Statistic :=
  let assets := db.assets.filter (fun a =>
    a.user_id == user_id && a.status == .active &&
    decide (a.purchase_date.toSec ≤ statistic.date.toSec))
  let pricer := fun (a : Asset) => do
    let p ← get_asset_price_at_datetime fuel db a.id statistic.date
    pure (if p = 0 then a.purchase_price else p)
  match valueAssets db.currency_rates pricer assets (0, []) with
  | .error e => .error e
  | .ok (total_value, portfolio_distribution) =>
    .ok { user_id := statistic.user_id, date := statistic.date,
          total_portfolio_value := total_value,
          portfolio_distribution := portfolio_distribution }

/-- The `for statistic in relevant_statistics` loop of Phase 2: a
recomputed row per loaded row, aborting at the first error. -/
def recomputeAll (fuel : Nat) (db : DBState) (user_id : Int) :
    List Statistic → Except Err (List Statistic)
  | [] => .ok []
  | s :: rest =>
    match recomputeStat fuel db user_id s with
    | .error e => .error e
    | .ok s2 =>
      match recomputeAll fuel db user_id rest with
      | .error e => .error e
      | .ok rest2 => .ok (s2 :: rest2)

/-- Phase 2 (lines 125-160): overwrite every previously loaded relevant
statistic in place; one commit at the end, so an error mid-loop discards
the whole phase. -/
def phaseB (fuel : Nat) (db : DBState) (user_id : Int)
    (relevant : List Statistic) : Except Err DBState :=
  match recomputeAll fuel db user_id relevant with
  | .error e => .error e
  | .ok updated =>
    .ok { db with statistics := db.statistics.map (fun t =>
      match (relevant.zip updated).find? (fun p => p.1 == t) with
      | some p => p.2
      | none => t) }

/-- `asset.current_price if asset.current_price is not None else
asset.purchase_price` — the Phase-3 price choice. -/
def currentPricePricer (a : Asset) : Except Err ℚ :=
  pure (match a.current_price with
        | some p => p
        | none => a.purchase_price)

/-- Phase 3 (lines 165-211): value all active assets at their cached
`current_price` (or `purchase_price` when the cache is `None`); skip the
insert when the latest existing statistic carries the identical total. -/
def phaseC (db : DBState) (user_id : Int) (now : DT) : Except Err DBState :=
  let assets := activeAssetsOf db user_id
  match valueAssets db.currency_rates currentPricePricer assets (0, []) with
  | .error e => .error e
  | .ok (total_value, portfolio_distribution) =>
    let insert :=
      insertStatistic db
        { user_id := user_id, date := now,
          total_portfolio_value := total_value,
          portfolio_distribution := portfolio_distribution }
    match lastStatisticOf db user_id with
    | some last =>
      if last.total_portfolio_value = total_value then .ok db else insert
    | none => insert

/-- Phase 1 with its guard (line 76): run only when the loaded relevant
list is non-empty AND its first row's day is strictly after the purchase
day AND `backwards`. -/
def stepAOf (fuel : Nat) (db : DBState) (user_id : Int)
    (latest_asset : Asset) (backwards : Bool) : Except Err DBState :=
  match firstRelevant
      (relevantStatistics db user_id latest_asset.purchase_date) with
  | some first =>
    if latest_asset.purchase_date.toDays < first.date.toDays ∧ backwards then
      phaseA fuel db user_id latest_asset latest_asset.purchase_date
    else .ok db
  | none => .ok db

/-- Phase 2 with its guard (line 125), operating on the state `db1` left by
Phase 1 but iterating the list loaded from the original `db0`. -/
def stepBOf (fuel : Nat) (db0 db1 : DBState) (user_id : Int)
    (latest_asset : Asset) (backwards : Bool) : Except Err DBState :=
  let relevant :=
    relevantStatistics db0 user_id latest_asset.purchase_date
  if relevant ≠ [] ∧ backwards then phaseB fuel db1 user_id relevant
  else .ok db1

/-- `update_user_portfolio_value(user_id, backwards)` at instant `now`.
Each phase commits separately in the source, so the returned state keeps
the phases completed before an error (the error itself propagates,
uncaught, to the caller). -/
def update_user_portfolio_value (fuel : Nat) (db : DBState) (user_id : Int)
    (backwards : Bool) (now : DT) : DBState × Option Err :=
  match latestActiveAsset db user_id with
  | none => (db, none)
  | some latest_asset =>
    match stepAOf fuel db user_id latest_asset backwards with
    | .error e => (db, some e)
    | .ok db1 =>
      match stepBOf fuel db db1 user_id latest_asset backwards with
      | .error e => (db1, some e)
      | .ok db2 =>
        match phaseC db2 user_id now with
        | .error e => (db2, some e)
        | .ok db3 => (db3, none)

/-! ## Retention job (`cleanup_old_price_data`) -/

/-- The tables created from `database/models.py` by
`Base.metadata.create_all`. -/
def modelsTables : List String :=
  ["users", "user_settings", "roles", "permissions", "user_roles",
   "role_permissions", "assets", "currency_exchange_rates", "assets_list",
   "crypto_list", "asset_prices", "statistics", "bank_history"]

/-- `cleanup_old_price_data`: issues
`DELETE FROM stock_prices WHERE interval = '1hour' AND datetime < NOW() - INTERVAL '30 days'`.
The schema (`modelsTables`) holds the OHLCV bars in `asset_prices` and has
no `stock_prices` table, so the statement raises, the `except` branch
rolls back, and the price store is untouched; were the name to resolve to
the bar store, the filter below would apply. -/
def cleanup_old_price_data (db : DBState) (now : DT) : DBState :=
  if modelsTables.contains "stock_prices" then
    { db with asset_prices := db.asset_prices.filter (fun b =>
        ¬(b.interval = "1hour" ∧ b.datetime.toSec < now.toSec - 30 * 86400)) }
  else db

/-! ## Concrete database states used when checking the claims -/

def mkDT (y m d s : Int) : DT :=
  { year := y, month := m, day := d, sec := s }

/-- 10 shares of AAPL bought 2024-01-10 09:00 UTC at 100 USD, cached
`current_price` 150. -/
def aaplAsset : Asset :=
  { id := 1, user_id := 1, type := .stocks, status := .active,
    symbol := some "AAPL", mic_code := some "XNAS",
    exchange := some "NASDAQ", currency := some "USD",
    purchase_price := 100, current_price := some 150,
    purchase_date := mkDT 2024 1 10 32400, quantity := 10,
    bond_settings := none, updated_at := 5 }

/-- A user whose statistic table is empty. -/
def dbEmptyStats : DBState :=
  { assets := [aaplAsset], statistics := [], currency_rates := [],
    asset_prices := [] }

def nowMid2025 : DT := mkDT 2025 6 1 43200

/-- A bond: 1000 at flat 5% p.a., bought 2024-01-01, contractual
maturity 2025-01-01, annual resets, no capitalization. -/
def bondSettingsFix : BondSettingsJson :=
  { capitalizationOfInterest := some false, capitalizationFrequency := none,
    interestRateResetsFrequency := some 12,
    maturityDate := some (mkDT 2025 1 1 0), interestRates := some [(1, 5)] }

def bondAssetFix : Asset :=
  { id := 3, user_id := 1, type := .bonds, status := .active,
    symbol := none, mic_code := none, exchange := none,
    currency := some "USD", purchase_price := 1000, current_price := none,
    purchase_date := mkDT 2024 1 1 0, quantity := 1,
    bond_settings := some bondSettingsFix, updated_at := 1 }

def dbBond : DBState :=
  { assets := [bondAssetFix], statistics := [], currency_rates := [],
    asset_prices := [] }

/-- The `calculate_bond_value` arguments that `update_bonds_prices` builds
for a matured bond: real maturity 2024-07-01 from the settings,
`calculate_maturity_value=False`, so the end instant is `utcnow()`. -/
def cfgStalled : BondCfg :=
  { purchase_price := 1000, capitalization_of_interest := false,
    capitalization_frequency := none, interestRateResetsFrequency := 12,
    purchase_date := mkDT 2024 1 1 0, maturity_date := mkDT 2024 7 1 0,
    interest_rates := [(1, 5)] }

def nowPastMaturity : DT := mkDT 2025 1 1 0

/-- An existing statistic on 2024-02-01, after `aaplAsset`'s purchase day. -/
def statFeb2024 : Statistic :=
  { user_id := 1, date := mkDT 2024 2 1 0, total_portfolio_value := 999,
    portfolio_distribution := [(.stocks, 999)] }

/-- The AAPL position with one prior statistic but no OHLCV bar at all. -/
def dbNoBars : DBState :=
  { assets := [aaplAsset], statistics := [statFeb2024],
    currency_rates := [], asset_prices := [] }

/-- A second position held in EUR while the FX table is empty. -/
def eurAssetFix : Asset :=
  { id := 2, user_id := 1, type := .other, status := .active,
    symbol := none, mic_code := none, exchange := none,
    currency := some "EUR", purchase_price := 100, current_price := some 10,
    purchase_date := mkDT 2024 1 10 32400, quantity := 5,
    bond_settings := none, updated_at := 3 }

def dbMissingRate : DBState :=
  { assets := [aaplAsset, eurAssetFix], statistics := [],
    currency_rates := [], asset_prices := [] }

/-- A statistic written earlier the same day (2025-06-01 10:00). -/
def statMorning : Statistic :=
  { user_id := 1, date := mkDT 2025 6 1 36000, total_portfolio_value := 100,
    portfolio_distribution := [(.stocks, 100)] }

def dbSameDay : DBState :=
  { assets := [aaplAsset], statistics := [statMorning],
    currency_rates := [], asset_prices := [] }

/-- 2025-06-01 11:00, one hour after `statMorning`. -/
def nowLater : DT := mkDT 2025 6 1 39600

/-- The row Phase 3 inserts on the first `backwards=false` run over
`dbEmptyStats` at `nowMid2025`. -/
def rowFirstRun : Statistic :=
  { user_id := 1, date := nowMid2025, total_portfolio_value := 1500,
    portfolio_distribution := [(.stocks, 1500)] }

def dbAfterFirstRun : DBState :=
  { assets := [aaplAsset], statistics := [rowFirstRun],
    currency_rates := [], asset_prices := [] }

/-- An hourly bar from 2025-01-01 (older than 30 days at 2025-03-01) and a
daily bar from the same instant. -/
def oldHourlyBar : AssetPrice :=
  { symbol := "AAPL", mic_code := "XNAS", exchange := "NASDAQ",
    datetime := mkDT 2025 1 1 0, interval := "1hour", close := 100 }

def oldDailyBar : AssetPrice :=
  { symbol := "AAPL", mic_code := "XNAS", exchange := "NASDAQ",
    datetime := mkDT 2025 1 1 0, interval := "1day", close := 100 }

def dbBars : DBState :=
  { assets := [], statistics := [], currency_rates := [],
    asset_prices := [oldHourlyBar, oldDailyBar] }

def nowMar2025 : DT := mkDT 2025 3 1 0

/-! ## Property vocabulary -/

def distKeys (d : List (AssetType × ℚ)) : List AssetType :=
  d.map Prod.fst

/-- Per-table uniqueness of the `(user_id, date)` key enforced by the
`idx_user_date` unique index (raw datetime). -/
def statKeysUnique (l : List Statistic) : Prop :=
  l.Pairwise (fun s t => ¬(s.user_id = t.user_id ∧ s.date = t.date))

/-- The claimed row invariant: the stored total equals the sum of the
distribution's values. -/
def goodStat (s : Statistic) : Prop :=
  s.total_portfolio_value = sumValues s.portfolio_distribution

/-! ## Helper lemmas for the diverging bond walk -/

/-- From the stalled configuration's purchase date, one event step lands on
the maturity date (the event minimum is capped by `maturity_date`). -/
theorem bondStep_from_purchase (p a : ℚ) :
    (bondStep cfgStalled nowPastMaturity
      { principal := p, accrued_interest := a,
        current_dt := mkDT 2024 1 1 0 }).current_dt = mkDT 2024 7 1 0 := rfl

/-- Once the clock sits on the maturity date while the end instant lies
beyond it, the next event is again the maturity date: the step no longer
advances the clock. -/
theorem bondStep_at_maturity (p a : ℚ) :
    (bondStep cfgStalled nowPastMaturity
      { principal := p, accrued_interest := a,
        current_dt := mkDT 2024 7 1 0 }).current_dt = mkDT 2024 7 1 0 := rfl

/-- The event walk started anywhere on the stalled trajectory never exits
the loop, whatever the fuel. -/
theorem bondLoop_stalled (n : Nat) :
    ∀ s : BondState,
      s.current_dt = mkDT 2024 1 1 0 ∨ s.current_dt = mkDT 2024 7 1 0 →
      bondLoop cfgStalled nowPastMaturity n s = .outOfFuel := by
  induction n with
  | zero =>
    intro s h
    obtain ⟨p, a, c⟩ := s
    rcases h with h | h <;> simp only at h <;> subst h <;> rfl
  | succ n ih =>
    intro s h
    obtain ⟨p, a, c⟩ := s
    rcases h with h | h <;> simp only at h <;> subst h
    · show bondLoop cfgStalled nowPastMaturity n _ = .outOfFuel
      exact ih _ (Or.inr (bondStep_from_purchase p a))
    · show bondLoop cfgStalled nowPastMaturity n _ = .outOfFuel
      exact ih _ (Or.inr (bondStep_at_maturity p a))

end Pvu

namespace Pvu

/-! ## Claim theorems

The Batteries rational operations are `irreducible` by default; concrete
runs are evaluated by `decide`, which needs them reducible. -/

attribute [local semireducible] Rat.add Rat.mul Rat.inv Rat.sub

/-- Claim C1 (refuted by the code, intent clear from the source's own
comment): with the user's statistic set `S` empty, running
`update_user_portfolio_value(user, backwards=true)` is required by the
claim to insert a statistic at the triggering asset's purchase day
`d0 = 2024-01-10`.  The run completes without error, yet no resulting row
falls on that day (only the Phase-3 "now" row at 2025-06-01 is written):
the Phase-1 guard `relevant_statistics and ...` skips the empty case. -/
theorem c1_empty_series_gets_no_backfill_row :
    (update_user_portfolio_value 10 dbEmptyStats 1 true nowMid2025).2 = none ∧
    (update_user_portfolio_value 10 dbEmptyStats 1 true
        nowMid2025).1.statistics.all
      (fun s => decide (s.date.toDays ≠ aaplAsset.purchase_date.toDays)) =
      true ∧
    dbEmptyStats.statistics = [] := by
  decide

/-- Claim C2, counterexample: the price resolver hands `target_datetime`
to `calculate_bond_value` as the `maturity_date` argument, so for the bond
with contractual maturity 2025-01-01 the value at 2026-01-01 keeps
accruing past maturity and differs from the value at maturity
(80310/73 vs 76660/73); the claim demands they be equal. -/
theorem c2_counterexample :
    bondSettingsFix.maturityDate = some (mkDT 2025 1 1 0) ∧
    get_asset_price_at_datetime 100 dbBond 3 (mkDT 2025 1 1 0) =
      .ok (76660 / 73) ∧
    get_asset_price_at_datetime 100 dbBond 3 (mkDT 2026 1 1 0) =
      .ok (80310 / 73) ∧
    (76660 / 73 : ℚ) ≠ 80310 / 73 := by
  decide

/-- Claim C3 (the code diverges; the claim's terminating walk is the
documented intent): for a bond already past its maturity
(purchase 2024-01-01, maturity 2024-07-01) valued with
`calculate_maturity_value=False` at `now` = 2025-01-01, the event walk
never terminates — after reaching the maturity date every iteration
computes a zero-day event and leaves the clock in place, for every fuel
bound. -/
theorem c3_bond_walk_diverges_past_maturity (fuel : Nat) :
    calculate_bond_value fuel cfgStalled false nowPastMaturity =
      .outOfFuel := by
  show bondLoop cfgStalled nowPastMaturity fuel
      { principal := 1000, accrued_interest := 0,
        current_dt := mkDT 2024 1 1 0 } = .outOfFuel
  exact bondLoop_stalled fuel _ (Or.inl rfl)

/-- Claim C4 (refuted by the code; the `or purchase_price` fallback written
at the call site shows the intent): for the AAPL position with no OHLCV bar
at all, the Phase-2 recomputation calls the resolver, which raises the
no-price `ValueError` instead of returning a falsy value, so the rebuild
aborts (`Err.noPrice`) and the pre-existing statistic keeps its stale total
999 instead of the claimed `purchase_price` substitution. -/
theorem c4_missing_price_aborts_rebuild :
    (update_user_portfolio_value 10 dbNoBars 1 true nowMid2025).2 =
      some (Err.noPrice "AAPL") ∧
    ((update_user_portfolio_value 10 dbNoBars 1 true
        nowMid2025).1.statistics.map
      (fun s => s.total_portfolio_value)) = [999, 1000] := by
  decide

/-- Claim C5, counterexample: with an active EUR position and no stored
EUR→USD rate, the rebuild neither excludes the asset nor writes a
statistic for the remaining USD position — the unknown-rate error
propagates out of `update_user_portfolio_value` and the statistic table is
left untouched. -/
theorem c5_counterexample :
    update_user_portfolio_value 10 dbMissingRate 1 false nowMid2025 =
      (dbMissingRate, some (Err.unknownRate "EUR" "USD")) := by
  decide

/-- Claim C6, counterexample: `translate_currency` has no same-currency
special case — converting EUR→EUR fails with the unknown-rate error when
no (EUR, EUR) row is stored, and multiplies by the stored rate (2 · 5 = 10,
not the identity) when such a row exists. -/
theorem c6_counterexample :
    translate_currency [] "EUR" "EUR" 5 =
      .error (Err.unknownRate "EUR" "EUR") ∧
    translate_currency
      [{ source_currency := "EUR", target_currency := "EUR", rate := 2 }]
      "EUR" "EUR" 5 = .ok 10 := by
  decide

/-- Helper: the event walk itself can only yield a value or run out of
fuel, never the bad-range error (that is raised before the loop). -/
theorem bondLoop_ne_badRange (cfg : BondCfg) (end_dt : DT) :
    ∀ (n : Nat) (s : BondState), bondLoop cfg end_dt n s ≠ .badRange := by
  intro n
  induction n with
  | zero =>
    intro s
    unfold bondLoop
    split <;> simp
  | succ n ih =>
    intro s
    unfold bondLoop
    split
    · exact ih _
    · simp

/-- Claim C2, amended: the resolver simulates up to `t_target` itself —
`target_datetime` is passed as the `maturity_date` argument with
`calculate_maturity_value=True` — so (i) the bad-range error occurs
exactly when the rate schedule is non-empty and `t_target` precedes the
purchase date, and (ii) accrual continues past the bond's contractual
maturity: for the fixture bond (maturity 2025-01-01) the resolved value at
2026-01-01 is strictly larger than at 2025-01-01. -/
theorem c2_amended :
    (∀ (fuel : Nat) (cfg : BondCfg) (t now : DT),
      calculate_bond_value fuel { cfg with maturity_date := t } true now =
          .badRange ↔
        cfg.interest_rates ≠ [] ∧ t.toSec < cfg.purchase_date.toSec) ∧
    get_asset_price_at_datetime 100 dbBond 3 (mkDT 2025 1 1 0) =
      .ok (76660 / 73) ∧
    get_asset_price_at_datetime 100 dbBond 3 (mkDT 2026 1 1 0) =
      .ok (80310 / 73) ∧
    (76660 / 73 : ℚ) < 80310 / 73 := by
  refine ⟨?_, by decide, by decide, by decide⟩
  intro fuel cfg t now
  by_cases hr : cfg.interest_rates = []
  · simp [calculate_bond_value, hr]
  · by_cases hlt : t.toSec < cfg.purchase_date.toSec
    · simp [calculate_bond_value, hr, hlt]
    · simp [calculate_bond_value, hr, hlt, bondLoop_ne_badRange]

/-- Witness for C2's amended statement: a concrete resolver-style call
whose target lies before the purchase date yields the bad-range error. -/
theorem c2_amended_witness :
    calculate_bond_value 5 { cfgStalled with maturity_date := mkDT 2023 1 1 0 }
      true nowPastMaturity = .badRange :=
  (c2_amended.1 5 cfgStalled (mkDT 2023 1 1 0) nowPastMaturity).mpr
    (by decide)

/-- Claim C6, amended: converting from a currency to itself is an ordinary
table lookup — the unknown-rate error when no `(c, c)` row is stored, and
`rate * amount` (identity only for a stored rate of 1) otherwise. -/
theorem c6_amended (rates : List CurrencyExchangeRate) (c : String) (x : ℚ) :
    (rates.find? (fun r => r.source_currency == c && r.target_currency == c) =
        none →
      translate_currency rates c c x = .error (.unknownRate c c)) ∧
    (∀ r,
      rates.find? (fun r2 =>
          r2.source_currency == c && r2.target_currency == c) = some r →
      translate_currency rates c c x = .ok (r.rate * x)) := by
  constructor
  · intro h
    unfold translate_currency
    rw [h]
  · intro r h
    unfold translate_currency
    rw [h]

/-- Witness for C6's amended statement at an empty FX table. -/
theorem c6_amended_witness :
    translate_currency [] "EUR" "EUR" 7 =
      .error (Err.unknownRate "EUR" "EUR") :=
  (c6_amended [] "EUR" 7).1 (by decide)

/-- Helper: folding `pickNewer` from a `some` accumulator stays `some`. -/
theorem pickNewer_fold_some (l : List Asset) :
    ∀ b : Asset, ∃ c, l.foldl pickNewer (some b) = some c := by
  induction l with
  | nil => intro b; exact ⟨b, rfl⟩
  | cons a t ih =>
    intro b
    show ∃ c, t.foldl pickNewer (pickNewer (some b) a) = some c
    by_cases h : b.updated_at < a.updated_at
    · rw [show pickNewer (some b) a = some a from by simp [pickNewer, h]]
      exact ih a
    · rw [show pickNewer (some b) a = some b from by simp [pickNewer, h]]
      exact ih b

/-- Helper: a user with an active asset has a triggering asset. -/
theorem latestActiveAsset_ne_none (db : DBState) (u : Int)
    (h : activeAssetsOf db u ≠ []) :
    ∃ la, latestActiveAsset db u = some la := by
  unfold latestActiveAsset
  cases hl : activeAssetsOf db u with
  | nil => exact absurd hl h
  | cons a t =>
    show ∃ la, t.foldl pickNewer (pickNewer none a) = some la
    exact pickNewer_fold_some t a

/-- Helper: with `backwards=false` the run is exactly Phase 3. -/
theorem update_false_eq (fuel : Nat) (db : DBState) (u : Int) (now : DT) :
    update_user_portfolio_value fuel db u false now =
      match latestActiveAsset db u with
      | none => (db, none)
      | some _ =>
        match phaseC db u now with
        | .error e => (db, some e)
        | .ok db3 => (db3, none) := by
  unfold update_user_portfolio_value
  cases latestActiveAsset db u with
  | none => rfl
  | some la =>
    have hA : stepAOf fuel db u la false = .ok db := by
      unfold stepAOf
      cases firstRelevant (relevantStatistics db u la.purchase_date) with
      | none => rfl
      | some first => simp
    have hB : stepBOf fuel db db u la false = .ok db := by
      unfold stepBOf
      simp
    simp only [hA, hB]

/-- Helper: valuing an asset whose currency lacks a direct USD rate fails
with exactly the unknown-rate error (the Phase-3 pricer itself never
fails). -/
theorem addAsset_current_missing (rates : List CurrencyExchangeRate)
    (acc : ℚ × List (AssetType × ℚ)) (a : Asset) (c : String)
    (hc : a.currency = some c) (h1 : c ≠ "") (h2 : c ≠ "USD")
    (hr : rates.find? (fun r =>
      r.source_currency == c && r.target_currency == "USD") = none) :
    addAsset rates currentPricePricer acc a =
      .error (.unknownRate c "USD") := by
  simp [addAsset, currentPricePricer, translate_currency, hc, h1, h2, hr,
    Bind.bind, Except.bind, Pure.pure, Except.pure]

/-- Helper: with the Phase-3 pricer, valuing one asset either succeeds or
fails with an unknown-rate error. -/
theorem addAsset_current_cases (rates : List CurrencyExchangeRate)
    (acc : ℚ × List (AssetType × ℚ)) (a : Asset) :
    (∃ acc2, addAsset rates currentPricePricer acc a = .ok acc2) ∨
    (∃ s t, addAsset rates currentPricePricer acc a =
      .error (.unknownRate s t)) := by
  simp only [addAsset, currentPricePricer, translate_currency, Bind.bind,
    Except.bind, Pure.pure, Except.pure]
  cases hcur : a.currency with
  | none => exact Or.inl ⟨_, rfl⟩
  | some c =>
    dsimp only
    by_cases hif : c ≠ "" ∧ c ≠ "USD"
    · rw [if_pos hif]
      cases hfind : rates.find? (fun r =>
          r.source_currency == c && r.target_currency == "USD") with
      | none => exact Or.inr ⟨c, "USD", rfl⟩
      | some r => exact Or.inl ⟨_, rfl⟩
    · rw [if_neg hif]
      exact Or.inl ⟨_, rfl⟩

/-- Helper: the Phase-3 accumulation over a list containing an asset with
no direct USD rate fails with an unknown-rate error. -/
theorem valueAssets_current_missing (rates : List CurrencyExchangeRate) :
    ∀ (l : List Asset) (acc : ℚ × List (AssetType × ℚ)) (a : Asset)
      (c : String), a ∈ l → a.currency = some c → c ≠ "" → c ≠ "USD" →
      rates.find? (fun r =>
        r.source_currency == c && r.target_currency == "USD") = none →
      ∃ s t, valueAssets rates currentPricePricer l acc =
        .error (.unknownRate s t) := by
  intro l
  induction l with
  | nil => intro acc a c ha; exact absurd ha (List.not_mem_nil a)
  | cons h t ih =>
    intro acc a c ha hc h1 h2 hr
    rcases addAsset_current_cases rates acc h with ⟨acc2, hok⟩ | ⟨s, u, herr⟩
    · rcases List.mem_cons.mp ha with rfl | hmem
      · rw [addAsset_current_missing rates acc a c hc h1 h2 hr] at hok
        exact absurd hok (by simp)
      · obtain ⟨s, u, hres⟩ := ih acc2 a c hmem hc h1 h2 hr
        refine ⟨s, u, ?_⟩
        unfold valueAssets
        rw [hok]
        exact hres
    · refine ⟨s, u, ?_⟩
      unfold valueAssets
      rw [herr]

/-- Claim C5, amended: an active asset whose currency has no stored direct
rate to USD makes the `backwards=false` rebuild fail with the unknown-rate
error; no statistic is written at all (the returned state is the input
state), instead of the claimed exclude-and-continue behaviour. -/
theorem c5_amended (fuel : Nat) (db : DBState) (u : Int) (now : DT)
    (a : Asset) (c : String)
    (ha : a ∈ activeAssetsOf db u)
    (hc : a.currency = some c) (h1 : c ≠ "") (h2 : c ≠ "USD")
    (hr : db.currency_rates.find? (fun r =>
      r.source_currency == c && r.target_currency == "USD") = none) :
    ∃ src tgt,
      update_user_portfolio_value fuel db u false now =
        (db, some (Err.unknownRate src tgt)) := by
  obtain ⟨s, t, herr⟩ := valueAssets_current_missing db.currency_rates
    (activeAssetsOf db u) (0, []) a c ha hc h1 h2 hr
  have hC : phaseC db u now = .error (.unknownRate s t) := by
    simp only [phaseC]
    rw [herr]
  obtain ⟨la, hla⟩ := latestActiveAsset_ne_none db u (List.ne_nil_of_mem ha)
  exact ⟨s, t, by simp only [update_false_eq, hla, hC]⟩

/-- Witness for C5's amended statement: the concrete EUR position with an
empty FX table. -/
theorem c5_amended_witness :
    ∃ src tgt,
      update_user_portfolio_value 10 dbMissingRate 1 false nowMid2025 =
        (dbMissingRate, some (Err.unknownRate src tgt)) :=
  c5_amended 10 dbMissingRate 1 nowMid2025 eurAssetFix "EUR" (by decide)
    (by decide) (by decide) (by decide) (by decide)

/-- Helper: folding addition of second components from any start. -/
theorem foldl_add_snd (t : List (AssetType × ℚ)) :
    ∀ x : ℚ, t.foldl (fun a p => a + p.2) x =
      x + t.foldl (fun a p => a + p.2) 0 := by
  induction t with
  | nil => intro x; simp
  | cons p r ih =>
    intro x
    rw [List.foldl_cons, List.foldl_cons, ih (x + p.2), ih (0 + p.2)]
    ring

theorem sumValues_cons (p : AssetType × ℚ) (t : List (AssetType × ℚ)) :
    sumValues (p :: t) = p.2 + sumValues t := by
  show List.foldl _ (0 + p.2) t = _
  rw [foldl_add_snd]
  show 0 + p.2 + sumValues t = _
  ring

/-- Helper: updating one class's bucket by `+ c` raises the distribution
sum by exactly `c`. -/
theorem sumValues_distSet (ty : AssetType) (c : ℚ) :
    ∀ d : List (AssetType × ℚ),
      sumValues (distSet d ty (distGet d ty + c)) = sumValues d + c := by
  intro d
  induction d with
  | nil =>
    show sumValues [(ty, 0 + c)] = sumValues [] + c
    rw [sumValues_cons]
    show 0 + c + sumValues [] = sumValues [] + c
    ring
  | cons p t ih =>
    by_cases hp : p.1 = ty
    · have hget : distGet (p :: t) ty = p.2 := by
        simp [distGet, List.find?_cons_of_pos, hp]
      have hset : ∀ v, distSet (p :: t) ty v = (ty, v) :: t := by
        intro v
        simp [distSet, hp]
      rw [hget, hset, sumValues_cons, sumValues_cons]
      ring
    · have hget : distGet (p :: t) ty = distGet t ty := by
        simp [distGet, List.find?_cons_of_neg, hp]
      have hset : ∀ v, distSet (p :: t) ty v = p :: distSet t ty v := by
        intro v
        simp [distSet, hp]
      rw [hget, hset, sumValues_cons, ih, sumValues_cons]
      ring

/-- Helper: a successful `addAsset` adds one contribution to the total and
the same contribution to that asset's class bucket. -/
theorem addAsset_ok_shape (rates : List CurrencyExchangeRate)
    (pricer : Asset → Except Err ℚ) (acc : ℚ × List (AssetType × ℚ))
    (a : Asset) (acc2 : ℚ × List (AssetType × ℚ))
    (h : addAsset rates pricer acc a = .ok acc2) :
    ∃ v : ℚ,
      acc2 = (acc.1 + v,
        distSet acc.2 a.type (distGet acc.2 a.type + v)) := by
  revert h
  simp only [addAsset, Bind.bind, Except.bind, Pure.pure, Except.pure]
  cases hp : pricer a with
  | error e => intro h; cases h
  | ok price =>
    dsimp only
    cases hcur : a.currency with
    | none => intro h; cases h; exact ⟨_, rfl⟩
    | some c =>
      dsimp only
      by_cases hif : c ≠ "" ∧ c ≠ "USD"
      · rw [if_pos hif]
        cases ht : translate_currency rates c "USD" (price * a.quantity) with
        | error e => intro h; cases h
        | ok w => intro h; cases h; exact ⟨w, rfl⟩
      · rw [if_neg hif]
        intro h; cases h; exact ⟨_, rfl⟩

/-- Helper: the shared accumulation loop preserves "total = distribution
sum". -/
theorem valueAssets_total (rates : List CurrencyExchangeRate)
    (pricer : Asset → Except Err ℚ) :
    ∀ (l : List Asset) (acc out : ℚ × List (AssetType × ℚ)),
      valueAssets rates pricer l acc = .ok out →
      acc.1 = sumValues acc.2 → out.1 = sumValues out.2 := by
  intro l
  induction l with
  | nil =>
    intro acc out h hacc
    cases h
    exact hacc
  | cons a t ih =>
    intro acc out h hacc
    revert h
    unfold valueAssets
    cases hadd : addAsset rates pricer acc a with
    | error e => intro h; cases h
    | ok acc2 =>
      intro h
      refine ih acc2 out h ?_
      obtain ⟨v, hshape⟩ := addAsset_ok_shape rates pricer acc a acc2 hadd
      rw [hshape]
      show acc.1 + v = sumValues (distSet acc.2 a.type (distGet acc.2 a.type + v))
      rw [sumValues_distSet, hacc]

/-- Helper: a successful insert appends the row and changes nothing
else; the uniqueness pre-check passed. -/
theorem insertStatistic_ok (db : DBState) (s : Statistic) (db2 : DBState)
    (h : insertStatistic db s = .ok db2) :
    db2 = { db with statistics := db.statistics ++ [s] } ∧
    db.statistics.any (fun t =>
      t.user_id == s.user_id && t.date == s.date) = false := by
  revert h
  unfold insertStatistic
  split
  · intro h; cases h
  · intro h
    cases h
    refine ⟨rfl, ?_⟩
    rename_i hcond
    simpa using hcond

/-- Helper: a successful insert of an invariant-satisfying row preserves
the old-or-invariant property of the table. -/
theorem insert_rows (db : DBState) (row : Statistic) (db2 : DBState)
    (h : insertStatistic db row = .ok db2) (hgood : goodStat row) :
    ∀ s ∈ db2.statistics, s ∈ db.statistics ∨ goodStat s := by
  intro s hs
  obtain ⟨hdb2, _⟩ := insertStatistic_ok db row db2 h
  have hs2 : s ∈ db.statistics ++ [row] := by rw [hdb2] at hs; exact hs
  rcases List.mem_append.mp hs2 with hold | hnew
  · exact Or.inl hold
  · cases List.mem_singleton.mp hnew
    exact Or.inr hgood

/-- Helper: rows left by Phase 1 are old rows or satisfy the total
invariant. -/
theorem phaseA_rows (fuel : Nat) (db : DBState) (u : Int) (la : Asset)
    (pd : DT) (db2 : DBState) (h : phaseA fuel db u la pd = .ok db2) :
    ∀ s ∈ db2.statistics, s ∈ db.statistics ∨ goodStat s := by
  revert h
  unfold phaseA
  dsimp only
  split
  · intro h; cases h
  · rename_i tv dist hv
    intro h
    exact insert_rows db _ db2 h (valueAssets_total _ _ _ _ _ hv rfl)

/-- Helper: a successful recomputation keeps the row's key and satisfies
the total invariant. -/
theorem recomputeStat_ok (fuel : Nat) (db : DBState) (u : Int)
    (st st2 : Statistic) (h : recomputeStat fuel db u st = .ok st2) :
    goodStat st2 ∧ st2.user_id = st.user_id ∧ st2.date = st.date := by
  revert h
  unfold recomputeStat
  dsimp only
  split
  · intro h; cases h
  · rename_i tv dist hv
    intro h
    cases h
    exact ⟨valueAssets_total _ _ _ _ _ hv rfl, rfl, rfl⟩

/-- Helper: every row produced by the Phase-2 loop satisfies the total
invariant and pairs up with its source row. -/
theorem recomputeAll_forall (fuel : Nat) (db : DBState) (u : Int) :
    ∀ (rel updated : List Statistic),
      recomputeAll fuel db u rel = .ok updated →
      (∀ s ∈ updated, goodStat s) ∧
      (∀ p ∈ rel.zip updated,
        p.2.user_id = p.1.user_id ∧ p.2.date = p.1.date) := by
  intro rel
  induction rel with
  | nil =>
    intro updated h
    cases h
    exact ⟨fun s hs => absurd hs (List.not_mem_nil s), fun p hp => absurd hp (List.not_mem_nil p)⟩
  | cons r rt ih =>
    intro updated h
    revert h
    unfold recomputeAll
    cases h1 : recomputeStat fuel db u r with
    | error e => intro h; cases h
    | ok r2 =>
      cases h2 : recomputeAll fuel db u rt with
      | error e => intro h; cases h
      | ok rest2 =>
        intro h
        cases h
        obtain ⟨hgood, hkey, hdate⟩ := recomputeStat_ok fuel db u r r2 h1
        obtain ⟨ihg, ihz⟩ := ih rest2 h2
        constructor
        · intro s hs
          rcases List.mem_cons.mp hs with rfl | hmem
          · exact hgood
          · exact ihg s hmem
        · intro p hp
          rcases List.mem_cons.mp hp with rfl | hmem
          · exact ⟨hkey, hdate⟩
          · exact ihz p hmem

/-- Helper: rows left by Phase 2 are old rows or satisfy the total
invariant. -/
theorem phaseB_rows (fuel : Nat) (db : DBState) (u : Int)
    (rel : List Statistic) (db2 : DBState)
    (h : phaseB fuel db u rel = .ok db2) :
    ∀ s ∈ db2.statistics, s ∈ db.statistics ∨ goodStat s := by
  revert h
  unfold phaseB
  cases hrec : recomputeAll fuel db u rel with
  | error e => intro h; cases h
  | ok updated =>
    intro h
    cases h
    intro s hs
    obtain ⟨t, hmem, hft⟩ := List.mem_map.mp hs
    revert hft
    cases hfind : (rel.zip updated).find? (fun p => p.1 == t) with
    | none => intro hft; subst hft; exact Or.inl hmem
    | some p =>
      intro hft
      subst hft
      have hp := List.mem_of_find?_eq_some hfind
      have hupd : p.2 ∈ updated := (List.of_mem_zip hp).2
      exact Or.inr ((recomputeAll_forall fuel db u rel updated hrec).1 p.2 hupd)

/-- Helper: rows left by Phase 3 are old rows or satisfy the total
invariant. -/
theorem phaseC_rows (db : DBState) (u : Int) (now : DT) (db2 : DBState)
    (h : phaseC db u now = .ok db2) :
    ∀ s ∈ db2.statistics, s ∈ db.statistics ∨ goodStat s := by
  revert h
  unfold phaseC
  dsimp only
  split
  · intro h; cases h
  · rename_i tv dist hv
    split
    · split
      · intro h
        cases h
        exact fun s hs => Or.inl hs
      · intro h
        exact insert_rows db _ db2 h (valueAssets_total _ _ _ _ _ hv rfl)
    · intro h
      exact insert_rows db _ db2 h (valueAssets_total _ _ _ _ _ hv rfl)

/-- Helper: rows left by the guarded Phase 1 step. -/
theorem stepA_rows (fuel : Nat) (db : DBState) (u : Int) (la : Asset)
    (b : Bool) (db1 : DBState) (h : stepAOf fuel db u la b = .ok db1) :
    ∀ s ∈ db1.statistics, s ∈ db.statistics ∨ goodStat s := by
  revert h
  unfold stepAOf
  cases firstRelevant (relevantStatistics db u la.purchase_date) with
  | none => intro h; cases h; exact fun s hs => Or.inl hs
  | some first =>
    dsimp only
    by_cases hcond : la.purchase_date.toDays < first.date.toDays ∧ b = true
    · rw [if_pos hcond]
      exact phaseA_rows fuel db u la la.purchase_date db1
    · rw [if_neg hcond]
      intro h; cases h; exact fun s hs => Or.inl hs

/-- Helper: rows left by the guarded Phase 2 step. -/
theorem stepB_rows (fuel : Nat) (db0 db1 : DBState) (u : Int) (la : Asset)
    (b : Bool) (db2 : DBState)
    (h : stepBOf fuel db0 db1 u la b = .ok db2) :
    ∀ s ∈ db2.statistics, s ∈ db1.statistics ∨ goodStat s := by
  revert h
  unfold stepBOf
  dsimp only
  by_cases hcond : relevantStatistics db0 u la.purchase_date ≠ [] ∧ b = true
  · rw [if_pos hcond]
    exact phaseB_rows fuel db1 u _ db2
  · rw [if_neg hcond]
    intro h; cases h; exact fun s hs => Or.inl hs

/-- Helper: any row present after a run is a pre-existing row or satisfies
the total invariant, whatever the run's outcome. -/
theorem update_rows (fuel : Nat) (db : DBState) (u : Int) (b : Bool)
    (now : DT) :
    ∀ s ∈ (update_user_portfolio_value fuel db u b now).1.statistics,
      s ∈ db.statistics ∨ goodStat s := by
  unfold update_user_portfolio_value
  cases hl : latestActiveAsset db u with
  | none => exact fun s hs => Or.inl hs
  | some la =>
    dsimp only
    cases hA : stepAOf fuel db u la b with
    | error e => exact fun s hs => Or.inl hs
    | ok db1 =>
      dsimp only
      have h1 := stepA_rows fuel db u la b db1 hA
      cases hB : stepBOf fuel db db1 u la b with
      | error e => exact fun s hs => h1 s hs
      | ok db2 =>
        dsimp only
        have h2 := stepB_rows fuel db db1 u la b db2 hB
        have chain2 : ∀ s ∈ db2.statistics, s ∈ db.statistics ∨ goodStat s :=
          fun s hs => (h2 s hs).elim (fun hh => h1 s hh) Or.inr
        cases hC : phaseC db2 u now with
        | error e => exact fun s hs => chain2 s hs
        | ok db3 =>
          dsimp only
          have h3 := phaseC_rows db2 u now db3 hC
          exact fun s hs => (h3 s hs).elim (fun hh => chain2 s hh) Or.inr

/-- Claim C7, confirmed: every statistic row written by the builder (the
Phase-1 insert, every Phase-2 overwrite, the Phase-3 insert) has its
`total_portfolio_value` within 1e-6 of the sum of its
`portfolio_distribution` values — in the exact-arithmetic embedding the
two are equal, so the difference is 0. -/
theorem c7_statistic_total_eq_distribution_sum (fuel : Nat) (db : DBState)
    (u : Int) (b : Bool) (now : DT) (s : Statistic)
    (hs : s ∈ (update_user_portfolio_value fuel db u b now).1.statistics)
    (hnew : s ∉ db.statistics) :
    |s.total_portfolio_value - sumValues s.portfolio_distribution| <
      1 / 1000000 := by
  rcases update_rows fuel db u b now s hs with hold | hgood
  · exact absurd hold hnew
  · rw [hgood, sub_self, abs_zero]
    norm_num

/-- Witness for C7 at the concrete first run over `dbEmptyStats`: the
inserted row at `nowMid2025`. -/
theorem c7_witness :
    |rowFirstRun.total_portfolio_value -
      sumValues rowFirstRun.portfolio_distribution| < 1 / 1000000 :=
  c7_statistic_total_eq_distribution_sum 10 dbEmptyStats 1 false nowMid2025
    rowFirstRun (by decide) (by decide)

/-- Claim C8, counterexample: a statistic written at 10:00 and a Phase-3
insert at 11:00 of the same calendar day (2025-06-01) both persist — two
rows for `(user 1, day 20240)` exist after the run, because the unique
index is on the raw datetime, not the day. -/
theorem c8_counterexample :
    (update_user_portfolio_value 10 dbSameDay 1 false nowLater).2 = none ∧
    ((update_user_portfolio_value 10 dbSameDay 1 false
        nowLater).1.statistics.countP
      (fun s => s.user_id == 1 && s.date.toDays == 20240)) = 2 := by
  decide

/-- Helper: a successful insert preserves `(user_id, date)` uniqueness
(the pre-check rejected any exact-key duplicate). -/
theorem insert_keys (db : DBState) (row : Statistic) (db2 : DBState)
    (h : insertStatistic db row = .ok db2)
    (hu : statKeysUnique db.statistics) :
    statKeysUnique db2.statistics := by
  obtain ⟨hdb2, hchk⟩ := insertStatistic_ok db row db2 h
  rw [hdb2]
  show (db.statistics ++ [row]).Pairwise _
  rw [List.pairwise_append]
  refine ⟨hu, List.pairwise_singleton _ _, ?_⟩
  intro a ha b hb
  cases List.mem_singleton.mp hb
  have hpa := List.any_eq_false.mp hchk a ha
  intro hk
  exact hpa (by simp [hk.1, hk.2])

/-- Helper: the Phase-2 overwrite keeps every row's `(user_id, date)` key,
so uniqueness is preserved. -/
theorem phaseB_keys (fuel : Nat) (db : DBState) (u : Int)
    (rel : List Statistic) (db2 : DBState)
    (h : phaseB fuel db u rel = .ok db2)
    (hu : statKeysUnique db.statistics) :
    statKeysUnique db2.statistics := by
  revert h
  unfold phaseB
  cases hrec : recomputeAll fuel db u rel with
  | error e => intro h; cases h
  | ok updated =>
    intro h
    cases h
    unfold statKeysUnique at hu ⊢
    dsimp only
    have hkey : ∀ t : Statistic,
        ((match (rel.zip updated).find? (fun p => p.1 == t) with
          | some p => p.2
          | none => t : Statistic)).user_id = t.user_id ∧
        ((match (rel.zip updated).find? (fun p => p.1 == t) with
          | some p => p.2
          | none => t : Statistic)).date = t.date := by
      intro t
      cases hf : (rel.zip updated).find? (fun p => p.1 == t) with
      | none => exact ⟨rfl, rfl⟩
      | some p =>
        have hpt : p.1 = t := by
          have hpred := List.find?_some hf
          exact beq_iff_eq.mp hpred
        have hp := List.mem_of_find?_eq_some hf
        have hkeys := (recomputeAll_forall fuel db u rel updated hrec).2 p hp
        exact ⟨hkeys.1.trans (congrArg Statistic.user_id hpt),
          hkeys.2.trans (congrArg Statistic.date hpt)⟩
    rw [List.pairwise_map]
    refine hu.imp ?_
    intro a b hab hk
    exact hab ⟨((hkey a).1.symm.trans hk.1).trans (hkey b).1,
      ((hkey a).2.symm.trans hk.2).trans (hkey b).2⟩

/-- Helper: Phase 1 with its guard preserves key uniqueness. -/
theorem stepA_keys (fuel : Nat) (db : DBState) (u : Int) (la : Asset)
    (b : Bool) (db1 : DBState) (h : stepAOf fuel db u la b = .ok db1)
    (hu : statKeysUnique db.statistics) :
    statKeysUnique db1.statistics := by
  revert h
  unfold stepAOf
  cases firstRelevant (relevantStatistics db u la.purchase_date) with
  | none => intro h; cases h; exact hu
  | some first =>
    dsimp only
    by_cases hcond : la.purchase_date.toDays < first.date.toDays ∧ b = true
    · rw [if_pos hcond]
      unfold phaseA
      dsimp only
      split
      · intro h; cases h
      · intro h
        exact insert_keys db _ db1 h hu
    · rw [if_neg hcond]
      intro h; cases h; exact hu

/-- Helper: Phase 2 with its guard preserves key uniqueness. -/
theorem stepB_keys (fuel : Nat) (db0 db1 : DBState) (u : Int) (la : Asset)
    (b : Bool) (db2 : DBState)
    (h : stepBOf fuel db0 db1 u la b = .ok db2)
    (hu : statKeysUnique db1.statistics) :
    statKeysUnique db2.statistics := by
  revert h
  unfold stepBOf
  dsimp only
  by_cases hcond : relevantStatistics db0 u la.purchase_date ≠ [] ∧ b = true
  · rw [if_pos hcond]
    intro h
    exact phaseB_keys fuel db1 u _ db2 h hu
  · rw [if_neg hcond]
    intro h; cases h; exact hu

/-- Helper: Phase 3 preserves key uniqueness. -/
theorem phaseC_keys (db : DBState) (u : Int) (now : DT) (db2 : DBState)
    (h : phaseC db u now = .ok db2)
    (hu : statKeysUnique db.statistics) :
    statKeysUnique db2.statistics := by
  revert h
  unfold phaseC
  dsimp only
  split
  · intro h; cases h
  · split
    · split
      · intro h; cases h; exact hu
      · intro h; exact insert_keys db _ db2 h hu
    · intro h; exact insert_keys db _ db2 h hu

/-- Claim C8, amended: the unique index is on the raw `(user_id, date)`
datetime pair, and the builder preserves exactly that uniqueness — whatever
the run's outcome — while same-day rows at distinct instants coexist (see
the counterexample). -/
theorem c8_amended (fuel : Nat) (db : DBState) (u : Int) (b : Bool)
    (now : DT) (hu : statKeysUnique db.statistics) :
    statKeysUnique
      (update_user_portfolio_value fuel db u b now).1.statistics := by
  unfold update_user_portfolio_value
  cases hl : latestActiveAsset db u with
  | none => exact hu
  | some la =>
    dsimp only
    cases hA : stepAOf fuel db u la b with
    | error e => exact hu
    | ok db1 =>
      dsimp only
      have h1 := stepA_keys fuel db u la b db1 hA hu
      cases hB : stepBOf fuel db db1 u la b with
      | error e => exact h1
      | ok db2 =>
        dsimp only
        have h2 := stepB_keys fuel db db1 u la b db2 hB h1
        cases hC : phaseC db2 u now with
        | error e => exact h2
        | ok db3 =>
          dsimp only
          exact phaseC_keys db2 u now db3 hC h2

/-- Witness for C8's amended statement at the same-day fixture run. -/
theorem c8_amended_witness :
    statKeysUnique
      (update_user_portfolio_value 10 dbSameDay 1 false
        nowLater).1.statistics :=
  c8_amended 10 dbSameDay 1 false nowLater
    (List.pairwise_singleton _ _)

/-- Helper: folding `pickLater` over a list whose appended last element is
strictly newest yields that element. -/
theorem pickLater_fold_max (row : Statistic) :
    ∀ (l : List Statistic) (acc : Option Statistic),
      (acc = none ∨ ∃ b, acc = some b ∧ b.date.toSec < row.date.toSec) →
      (∀ s ∈ l, s.date.toSec < row.date.toSec) →
      (l ++ [row]).foldl pickLater acc = some row := by
  intro l
  induction l with
  | nil =>
    intro acc hacc _
    rcases hacc with rfl | ⟨b, rfl, hb⟩
    · rfl
    · show pickLater (some b) row = some row
      simp [pickLater, hb]
  | cons s t ih =>
    intro acc hacc hl
    show (t ++ [row]).foldl pickLater (pickLater acc s) = some row
    have hs := hl s (List.mem_cons_self s t)
    refine ih _ ?_ (fun x hx => hl x (List.mem_cons_of_mem s hx))
    rcases hacc with rfl | ⟨b, rfl, hb⟩
    · exact Or.inr ⟨s, rfl, hs⟩
    · by_cases hbs : b.date.toSec < s.date.toSec
      · exact Or.inr ⟨s, by simp [pickLater, hbs], hs⟩
      · exact Or.inr ⟨b, by simp [pickLater, hbs], hb⟩

/-- Helper: filtering the user's rows commutes with appending a row of
that user. -/
theorem statsOf_append (db : DBState) (u : Int) (row : Statistic)
    (hu : row.user_id = u) :
    statsOf { db with statistics := db.statistics ++ [row] } u =
      statsOf db u ++ [row] := by
  unfold statsOf
  dsimp only
  rw [List.filter_append]
  simp [hu]

/-- Helper: after inserting a strictly-newest row for the user, that row is
the user's latest statistic. -/
theorem lastStatisticOf_insert_max (db : DBState) (u : Int)
    (row : Statistic) (hu : row.user_id = u)
    (h : ∀ s ∈ db.statistics, s.user_id = u →
      s.date.toSec < row.date.toSec) :
    lastStatisticOf { db with statistics := db.statistics ++ [row] } u =
      some row := by
  unfold lastStatisticOf
  rw [statsOf_append db u row hu]
  refine pickLater_fold_max row _ none (Or.inl rfl) ?_
  intro s hs
  have hmem := List.mem_filter.mp hs
  exact h s hmem.1 (by simpa using hmem.2)

/-- Helper: after a Phase-3 insert at `now1` (newer than every existing row
of the user), a re-run of Phase 3 at any instant no longer inserts. -/
theorem phaseC_post_insert (db : DBState) (u : Int) (now1 : DT) (tv : ℚ)
    (dist : List (AssetType × ℚ)) (d : DBState)
    (hv : valueAssets db.currency_rates currentPricePricer
      (activeAssetsOf db u) (0, []) = .ok (tv, dist))
    (h : insertStatistic db
      { user_id := u, date := now1, total_portfolio_value := tv,
        portfolio_distribution := dist } = .ok d)
    (h2 : ∀ s ∈ db.statistics, s.user_id = u → s.date.toSec < now1.toSec) :
    d.assets = db.assets ∧ d.currency_rates = db.currency_rates ∧
    ∀ now2, phaseC d u now2 = .ok d := by
  obtain ⟨hd, hchk⟩ := insertStatistic_ok db _ d h
  refine ⟨by rw [hd], by rw [hd], ?_⟩
  intro now2
  have e1 : valueAssets d.currency_rates currentPricePricer
      (activeAssetsOf d u) (0, []) = .ok (tv, dist) := by
    rw [hd]; exact hv
  have e2 : lastStatisticOf d u = some
      { user_id := u, date := now1, total_portfolio_value := tv,
        portfolio_distribution := dist } := by
    rw [hd]
    exact lastStatisticOf_insert_max db u _ rfl h2
  unfold phaseC
  dsimp only
  rw [e1]
  dsimp only
  rw [e2]
  simp

/-- Helper: a successful Phase 3 leaves a state on which Phase 3 re-runs as
a no-op, provided every pre-existing row of the user is older than the
run's instant. -/
theorem phaseC_post (db : DBState) (u : Int) (now1 : DT) (d : DBState)
    (h : phaseC db u now1 = .ok d)
    (h2 : ∀ s ∈ db.statistics, s.user_id = u → s.date.toSec < now1.toSec) :
    d.assets = db.assets ∧ d.currency_rates = db.currency_rates ∧
    ∀ now2, phaseC d u now2 = .ok d := by
  revert h
  unfold phaseC
  dsimp only
  split
  · intro h; cases h
  · rename_i tv dist hv
    split
    · rename_i last hlast
      split
      · rename_i heq
        intro h
        cases h
        refine ⟨rfl, rfl, ?_⟩
        intro now2
        rw [hv]
        dsimp only
        rw [hlast]
        dsimp only
        rw [if_pos heq]
      · intro h
        exact phaseC_post_insert db u now1 tv dist d hv h h2
    · intro h
      exact phaseC_post_insert db u now1 tv dist d hv h h2

/-- Claim C9, confirmed: with no intervening mutations, a second
`backwards=false` run after a successful first one changes nothing — it
recomputes the identical total from the same `current_price` caches, finds
the latest statistic equal, and inserts no row.  The hypothesis that the
user's pre-existing statistics predate the first run's `now` reflects that
statistics are only ever written at their insertion instant. -/
theorem c9_second_run_no_insert (fuel : Nat) (db : DBState) (u : Int)
    (now1 now2 : DT) (db1 : DBState)
    (h1 : update_user_portfolio_value fuel db u false now1 = (db1, none))
    (h2 : ∀ s ∈ db.statistics, s.user_id = u → s.date.toSec < now1.toSec) :
    update_user_portfolio_value fuel db1 u false now2 = (db1, none) := by
  rw [update_false_eq] at h1
  rw [update_false_eq]
  cases hl : latestActiveAsset db u with
  | none =>
    rw [hl] at h1
    have hdb : db = db1 := congrArg Prod.fst h1
    subst hdb
    rw [hl]
  | some la =>
    rw [hl] at h1
    dsimp only at h1
    cases hC : phaseC db u now1 with
    | error e =>
      rw [hC] at h1
      exact absurd (congrArg Prod.snd h1) (by simp)
    | ok d =>
      rw [hC] at h1
      have hd : d = db1 := congrArg Prod.fst h1
      subst hd
      obtain ⟨hassets, hrates, hsecond⟩ := phaseC_post db u now1 d hC h2
      have hl2 : latestActiveAsset d u = some la := by
        have hsame : latestActiveAsset d u = latestActiveAsset db u := by
          unfold latestActiveAsset activeAssetsOf
          rw [hassets]
        rw [hsame, hl]
      rw [hl2]
      dsimp only
      rw [hsecond now2]

/-- Witness for C9 at the concrete first run over `dbEmptyStats`. -/
theorem c9_witness :
    update_user_portfolio_value 10 dbAfterFirstRun 1 false
      (mkDT 2025 6 1 50000) = (dbAfterFirstRun, none) :=
  c9_second_run_no_insert 10 dbEmptyStats 1 nowMid2025
    (mkDT 2025 6 1 50000) dbAfterFirstRun (by decide)
    (fun s hs => absurd hs (List.not_mem_nil s))

/-- Claim C10 (refuted by the code; the function's own docstring states the
30-day hourly retention intent): the retention job deletes nothing — its
DELETE targets the absent `stock_prices` table, the raised error is
swallowed, and an hourly bar 59 days old survives the run unchanged. -/
theorem c10_retention_leaves_old_hourly_bars :
    cleanup_old_price_data dbBars nowMar2025 = dbBars ∧
    dbBars.asset_prices.any (fun b =>
      b.interval == "1hour" &&
      decide (b.datetime.toSec < nowMar2025.toSec - 30 * 86400)) = true := by
  decide

end Pvu
